import Mathlib

/-!
Verification of the tfc-agent-autoscaler reconciliation engine.

The definitions below are a shallow embedding of the Go source:
  * `computeDesired`, `Reconcile`, `protectBusyTasks`
      — internal/scaler/scaler.go
  * `SetTaskProtection`, `chunks` — internal/ecs/client.go
  * `ServiceView` operations (`GetAgentPoolStatus`, `GetPendingRuns`)
      — internal/tfc/service_view.go

Remote calls are modelled by a `World` record holding each read's result
(`Option` for fallibility) and a success flag for each write; a reconcile
cycle produces the ordered list of observable effects (metric recordings
and remote writes) together with the ok/error outcome and the new scaler
state.  Go `int`/`int32` values are modelled as `Int`; no arithmetic in
the modelled paths can overflow 32 bits for the in-range configurations
the claims quantify over.
-/

namespace Autoscaler

/-- Mirrors Go struct `tfc.AgentInfo` (internal/tfc/client.go). -/
structure AgentInfo where
  id : String
  name : String
  ip : String
  status : String
deriving DecidableEq, Repr

/-- Mirrors Go struct `ecs.TaskInfo` (internal/ecs/client.go). -/
structure TaskInfo where
  taskArn : String
  privateIP : String
deriving DecidableEq, Repr

/-- Mirrors Go struct `tfc.PendingRunCounts` (internal/tfc/client.go). -/
structure PendingRunCounts where
  planPending : Int
  applyPending : Int
deriving DecidableEq, Repr

/-- `computeDesired` from internal/scaler/scaler.go:
`desired := pendingRuns + busyAgents; return max(minAgents, min(desired, maxAgents))`. -/
def computeDesired (pendingRuns busyAgents minAgents maxAgents : Int) : Int :=
  let desired := pendingRuns + busyAgents
  max minAgents (min desired maxAgents)

/-- An observable effect of one reconcile cycle: a metric recording or a
remote write, in the order the Go code issues them. -/
inductive Effect where
  | recordReconcile (busy idle total pending desired running : Int)
  | recordCooldownSkip
  | recordTaskProtectionError
  | setProtection (arns : List String) (enabled : Bool) (ttl : Int)
  | setDesiredCall (count : Int)
  | recordScaleEvent (direction : String)
  | recordResult (success : Bool)
deriving DecidableEq, Repr

/-- The remote world one cycle observes: results of the three reads and of
the two protection-related reads, plus a success flag for each write. -/
structure World where
  poolStatus : Option (Int × Int × Int)
  pendingRuns : Option Int
  serviceStatus : Option (Int × Int)
  agentDetails : Option (List AgentInfo)
  taskIPs : Option (List TaskInfo)
  setDesiredOk : Bool
  protectBusyOk : Bool
  protectIdleOk : Bool
deriving Repr

/-- Scaler configuration fields read by `Reconcile` (internal/scaler/scaler.go). -/
structure ScalerConfig where
  minAgents : Int
  maxAgents : Int
  cooldown : Int
deriving DecidableEq, Repr

/-- Mutable scaler state: `lastScaleTime`, with `none` for Go's zero `time.Time`. -/
structure ScalerState where
  lastScaleTime : Option Int
deriving DecidableEq, Repr

/-- Result of one `Reconcile` cycle: ordered effects, ok-vs-error, new state. -/
structure ReconcileOut where
  effects : List Effect
  ok : Bool
  state : ScalerState
deriving DecidableEq, Repr

/-- One step of building the `ipToArn` map of `protectBusyTasks`: a task with
a non-empty `PrivateIP` equal to the sought ip overwrites the current entry. -/
def lookupStep (ip : String) (acc : Option String) (t : TaskInfo) : Option String :=
  if t.privateIP ≠ "" ∧ t.privateIP = ip then some t.taskArn else acc

/-- The `ipToArn` map of `protectBusyTasks`: built from tasks with a non-empty
`PrivateIP`, later entries overwriting earlier ones; lookup of `ip`. -/
def lookupIp (tasks : List TaskInfo) (ip : String) : Option String :=
  tasks.foldl (lookupStep ip) none

/-- One step of the partition loop of `protectBusyTasks`: an agent whose ip
resolves goes to `busyArns` when its status is `"busy"`, otherwise to
`idleArns`; an agent whose ip does not resolve is skipped. -/
def partitionStep (tasks : List TaskInfo) (acc : List String × List String)
    (a : AgentInfo) : List String × List String :=
  match lookupIp tasks a.ip with
  | none => acc
  | some arn =>
    if a.status = "busy" then (acc.1 ++ [arn], acc.2) else (acc.1, acc.2 ++ [arn])

/-- The partition loop of `protectBusyTasks` over all agents. -/
def partitionAgents (agents : List AgentInfo) (tasks : List TaskInfo) :
    List String × List String :=
  agents.foldl (partitionStep tasks) ([], [])

/-- The body of `protectBusyTasks` after both reads succeeded: the busy call
is issued iff `busyArns` is non-empty; a failed busy call returns before the
idle call; the idle call is issued iff `idleArns` is non-empty. -/
def protectCore (w : World) (agents : List AgentInfo) (tasks : List TaskInfo) :
    List Effect × Bool :=
  let p := partitionAgents agents tasks
  let busyStep : List Effect × Bool :=
    if p.1 = [] then ([], true)
    else ([Effect.setProtection p.1 true 120], w.protectBusyOk)
  if busyStep.2 = false then busyStep
  else
    let idleStep : List Effect × Bool :=
      if p.2 = [] then ([], true)
      else ([Effect.setProtection p.2 false 0], w.protectIdleOk)
    (busyStep.1 ++ idleStep.1, idleStep.2)

/-- `protectBusyTasks` from internal/scaler/scaler.go: returns the effects it
issued and whether it succeeded.  A failed read issues nothing. -/
def protectBusyTasks (w : World) : List Effect × Bool :=
  match w.agentDetails with
  | none => ([], false)
  | some agents =>
    match w.taskIPs with
    | none => ([], false)
    | some tasks => protectCore w agents tasks

/-- The cooldown test of `Reconcile`:
`!s.lastScaleTime.IsZero() && time.Since(s.lastScaleTime) < s.cooldown`. -/
def cooldownBlocking (st : ScalerState) (now cooldown : Int) : Bool :=
  match st.lastScaleTime with
  | none => false
  | some t => decide (now - t < cooldown)

/-- The tail of `Reconcile` shared by both scaling directions: issue
`SetDesiredCount`; on success record the scale event and update
`lastScaleTime`; on failure record a failure result and keep the state. -/
def applyScale (w : World) (st : ScalerState) (now count : Int)
    (direction : String) (effs : List Effect) : ReconcileOut :=
  if w.setDesiredOk then
    { effects := effs ++ [Effect.setDesiredCall count,
        Effect.recordScaleEvent direction, Effect.recordResult true],
      ok := true, state := { lastScaleTime := some now } }
  else
    { effects := effs ++ [Effect.setDesiredCall count, Effect.recordResult false],
      ok := false, state := st }

/-- The body of `Reconcile` after the three reads succeeded with the given
values (internal/scaler/scaler.go lines 132-219). -/
def reconcileCore (cfg : ScalerConfig) (st : ScalerState) (w : World)
    (now busy idle total pending currentDesired currentRunning : Int) : ReconcileOut :=
  let effs0 := [Effect.recordReconcile busy idle total pending currentDesired currentRunning]
  let desired := computeDesired pending busy cfg.minAgents cfg.maxAgents
  if desired = currentDesired then
    { effects := effs0 ++ [Effect.recordResult true], ok := true, state := st }
  else if desired < currentDesired then
    if cooldownBlocking st now cfg.cooldown then
      { effects := effs0 ++ [Effect.recordCooldownSkip, Effect.recordResult true],
        ok := true, state := st }
    else
      let scaleDownBy := min (currentDesired - desired) idle
      let guarded := currentDesired - scaleDownBy
      if guarded = currentDesired then
        { effects := effs0 ++ [Effect.recordResult true], ok := true, state := st }
      else
        let prot := protectBusyTasks w
        let effs1 := effs0 ++ prot.1 ++
          (if prot.2 then [] else [Effect.recordTaskProtectionError])
        applyScale w st now guarded
          (if guarded < currentDesired then "down" else "up") effs1
  else
    applyScale w st now desired "up" effs0

/-- `Reconcile` from internal/scaler/scaler.go: the three reads abort the
cycle on failure with a failure result recorded and no other effect. -/
def Reconcile (cfg : ScalerConfig) (st : ScalerState) (w : World) (now : Int) :
    ReconcileOut :=
  match w.poolStatus with
  | none => { effects := [Effect.recordResult false], ok := false, state := st }
  | some (busy, idle, total) =>
    match w.pendingRuns with
    | none => { effects := [Effect.recordResult false], ok := false, state := st }
    | some pending =>
      match w.serviceStatus with
      | none => { effects := [Effect.recordResult false], ok := false, state := st }
      | some (currentDesired, currentRunning) =>
        reconcileCore cfg st w now busy idle total pending currentDesired currentRunning

/-- One `UpdateTaskProtection` request as built by `SetTaskProtection`
(internal/ecs/client.go): `ExpiresInMinutes` is set only when
`enabled && expiresInMinutes > 0`. -/
structure ProtectionCall where
  tasks : List String
  protectionEnabled : Bool
  expiresInMinutes : Option Int
deriving DecidableEq, Repr

/-- The consecutive slices `taskArns[i:i+10]` taken by the loop of
`SetTaskProtection` (`const batchSize = 10`). -/
def chunks (l : List String) : List (List String) :=
  match l with
  | [] => []
  | a :: rest => ((a :: rest).take 10) :: chunks ((a :: rest).drop 10)
termination_by l.length
decreasing_by simp [List.length_drop]; omega

/-- Builds the `UpdateTaskProtectionInput` for one batch, as in
internal/ecs/client.go lines 131-138. -/
def mkProtectionCall (enabled : Bool) (expiresInMinutes : Int)
    (batch : List String) : ProtectionCall :=
  { tasks := batch, protectionEnabled := enabled,
    expiresInMinutes :=
      if enabled ∧ expiresInMinutes > 0 then some expiresInMinutes else none }

/-- Runs the batch loop of `SetTaskProtection`: `failAt i` tells whether the
remote call for batch `i` fails; a failing batch is still issued, and the
loop returns the error without issuing later batches. -/
def runProtectionBatches (enabled : Bool) (expiresInMinutes : Int)
    (failAt : Nat → Bool) : List (List String) → Nat → List ProtectionCall × Bool
  | [], _ => ([], true)
  | b :: rest, i =>
    let call := mkProtectionCall enabled expiresInMinutes b
    if failAt i then ([call], false)
    else
      let r := runProtectionBatches enabled expiresInMinutes failAt rest (i + 1)
      (call :: r.1, r.2)

/-- `SetTaskProtection` from internal/ecs/client.go, with `failAt` modelling
which remote calls fail: returns the issued calls in order and whether the
whole operation succeeded. -/
def SetTaskProtection (taskArns : List String) (enabled : Bool)
    (expiresInMinutes : Int) (failAt : Nat → Bool) : List ProtectionCall × Bool :=
  runProtectionBatches enabled expiresInMinutes failAt (chunks taskArns) 0

/-- The filter of `ServiceView.filteredAgents` (internal/tfc/service_view.go):
keep agents whose ip is in the task-IP set. -/
def filteredAgents (allAgents : List AgentInfo) (ips : List String) : List AgentInfo :=
  allAgents.filter (fun a => a.ip ∈ ips)

/-- The counting loop of `ServiceView.GetAgentPoolStatus`: state is
`(busy, idle, total)`; `"busy"` and `"idle"` each bump their own counter and
`total`; any other status is ignored. -/
def poolCountStep (acc : Int × Int × Int) (a : AgentInfo) : Int × Int × Int :=
  if a.status = "busy" then (acc.1 + 1, acc.2.1, acc.2.2 + 1)
  else if a.status = "idle" then (acc.1, acc.2.1 + 1, acc.2.2 + 1)
  else acc

/-- `ServiceView.GetAgentPoolStatus` on successful reads: filter the agents
by task ip, then count busy/idle/total. -/
def getAgentPoolStatus (allAgents : List AgentInfo) (ips : List String) :
    Int × Int × Int :=
  (filteredAgents allAgents ips).foldl poolCountStep (0, 0, 0)

/-- Go constant `tfc.RunTypePlan` (`RunType` is an `int`; `iota` gives 0). -/
def RunTypePlan : Int := 0

/-- Go constant `tfc.RunTypeApply`. -/
def RunTypeApply : Int := 1

/-- `ServiceView.GetPendingRuns` (internal/tfc/service_view.go): the result is
`(count, ok)`, Go's `(int, error)` with `ok = false` for a non-nil error (the
count is then the zero value 0). -/
def getPendingRuns (runType : Int) (counts : Option PendingRunCounts) : Int × Bool :=
  match counts with
  | none => (0, false)
  | some c =>
    if runType = RunTypePlan then (c.planPending, true)
    else if runType = RunTypeApply then (c.applyPending, true)
    else (0, false)

/-- Whether an effect is a `SetDesiredCount` call. -/
def isSetDesiredCall : Effect → Bool
  | Effect.setDesiredCall _ => true
  | _ => false

/-- The count passed to the (first, and in fact only) `SetDesiredCount` call
of a trace, if any. -/
def calledDesired (effs : List Effect) : Option Int :=
  effs.findSome? fun e => match e with
    | Effect.setDesiredCall c => some c
    | _ => none

/-- The service's desired count after a cycle: the successfully applied
count, or the previous `currentDesired` when nothing was applied or the
apply failed. -/
def newDesired (out : ReconcileOut) (currentDesired : Int) : Int :=
  if out.ok then (calledDesired out.effects).getD currentDesired else currentDesired

/-! ## Concrete witness inputs -/

/-- Concrete world for the C7 witness: 3 pending runs, 2 busy agents,
service at 0 desired; the first cycle converges by applying the target 5. -/
def witnessWorldConv : World :=
  { poolStatus := some (2, 0, 2), pendingRuns := some 3, serviceStatus := some (0, 0),
    agentDetails := some [], taskIPs := some [],
    setDesiredOk := true, protectBusyOk := true, protectIdleOk := true }

/-- Concrete world for the C2 witness: idle pool of 3 agents, no pending
work, service currently at 10 desired. -/
def witnessWorldDown : World :=
  { poolStatus := some (0, 3, 3), pendingRuns := some 0, serviceStatus := some (10, 10),
    agentDetails := some [], taskIPs := some [],
    setDesiredOk := true, protectBusyOk := true, protectIdleOk := true }

/-- Concrete world for the C3 witness: 3 pending runs, 2 busy agents,
service currently at 0 desired. -/
def witnessWorldUp : World :=
  { poolStatus := some (2, 0, 2), pendingRuns := some 3, serviceStatus := some (0, 0),
    agentDetails := some [], taskIPs := some [],
    setDesiredOk := true, protectBusyOk := true, protectIdleOk := true }

/-- Concrete world for the C4 witness: idle pool of 3, no pending work,
service at 10 desired. -/
def witnessWorldCooldown : World :=
  { poolStatus := some (0, 3, 3), pendingRuns := some 0, serviceStatus := some (10, 10),
    agentDetails := some [], taskIPs := some [],
    setDesiredOk := true, protectBusyOk := true, protectIdleOk := true }

/-- Concrete world for the C6 witness: the pool-status read fails. -/
def witnessWorldReadFail : World :=
  { poolStatus := none, pendingRuns := some 0, serviceStatus := some (0, 0),
    agentDetails := none, taskIPs := none,
    setDesiredOk := false, protectBusyOk := false, protectIdleOk := false }

/-- Concrete world for the C5 witness: one busy and one idle agent, each
correlated by ip with a task. -/
def witnessWorldProtect : World :=
  { poolStatus := some (1, 1, 2), pendingRuns := some 0, serviceStatus := some (2, 2),
    agentDetails := some [⟨"a1", "agent1", "10.0.0.1", "busy"⟩,
      ⟨"a2", "agent2", "10.0.0.2", "idle"⟩],
    taskIPs := some [⟨"arn1", "10.0.0.1"⟩, ⟨"arn2", "10.0.0.2"⟩],
    setDesiredOk := true, protectBusyOk := true, protectIdleOk := true }

/-! ## Helper lemmas -/

theorem protectCore_shape (w : World) (agents : List AgentInfo) (tasks : List TaskInfo) :
    ∀ e ∈ (protectCore w agents tasks).1, ∃ a b t, e = Effect.setProtection a b t := by
  intro e he
  by_cases h1 : (partitionAgents agents tasks).1 = [] <;>
    by_cases h2 : (partitionAgents agents tasks).2 = [] <;>
      by_cases h3 : w.protectBusyOk <;>
        simp [protectCore, h1, h2, h3] at he <;>
          first
            | exact ⟨_, _, _, he⟩
            | (rcases he with he | he <;> exact ⟨_, _, _, he⟩)

theorem protect_shape (w : World) :
    ∀ e ∈ (protectBusyTasks w).1, ∃ a b t, e = Effect.setProtection a b t := by
  intro e he
  unfold protectBusyTasks at he
  rcases hA : w.agentDetails with _ | agents <;> rw [hA] at he
  · simp at he
  rcases hT : w.taskIPs with _ | tasks <;> rw [hT] at he
  · simp at he
  exact protectCore_shape w agents tasks e he

theorem protect_mem_other (w : World) (e : Effect)
    (h : ∀ a b t, e ≠ Effect.setProtection a b t) : e ∉ (protectBusyTasks w).1 := by
  intro hm
  obtain ⟨a, b, t, rfl⟩ := protect_shape w e hm
  exact h a b t rfl

theorem protect_no_setDesired (w : World) (c : Int) :
    Effect.setDesiredCall c ∉ (protectBusyTasks w).1 :=
  protect_mem_other w _ (by intro a b t h; exact Effect.noConfusion h)

theorem Reconcile_reads (cfg : ScalerConfig) (st : ScalerState) (w : World)
    (now busy idle total pending cd cr : Int)
    (hp : w.poolStatus = some (busy, idle, total))
    (hpr : w.pendingRuns = some pending)
    (hs : w.serviceStatus = some (cd, cr)) :
    Reconcile cfg st w now = reconcileCore cfg st w now busy idle total pending cd cr := by
  unfold Reconcile
  rw [hp, hpr, hs]

theorem reconcileCore_noop (cfg : ScalerConfig) (st : ScalerState) (w : World)
    (now busy idle total pending cd cr : Int)
    (h1 : computeDesired pending busy cfg.minAgents cfg.maxAgents = cd) :
    reconcileCore cfg st w now busy idle total pending cd cr =
      { effects := [Effect.recordReconcile busy idle total pending cd cr,
          Effect.recordResult true], ok := true, state := st } := by
  simp [reconcileCore, h1]

theorem reconcileCore_cooldown (cfg : ScalerConfig) (st : ScalerState) (w : World)
    (now busy idle total pending cd cr : Int)
    (h2 : computeDesired pending busy cfg.minAgents cfg.maxAgents < cd)
    (h3 : cooldownBlocking st now cfg.cooldown = true) :
    reconcileCore cfg st w now busy idle total pending cd cr =
      { effects := [Effect.recordReconcile busy idle total pending cd cr,
          Effect.recordCooldownSkip, Effect.recordResult true],
        ok := true, state := st } := by
  have h1 : ¬(computeDesired pending busy cfg.minAgents cfg.maxAgents = cd) := by omega
  simp [reconcileCore, h1, h2, h3]

theorem reconcileCore_guard_noop (cfg : ScalerConfig) (st : ScalerState) (w : World)
    (now busy idle total pending cd cr : Int)
    (h2 : computeDesired pending busy cfg.minAgents cfg.maxAgents < cd)
    (h3 : cooldownBlocking st now cfg.cooldown = false)
    (h4 : cd - min (cd - computeDesired pending busy cfg.minAgents cfg.maxAgents) idle = cd) :
    reconcileCore cfg st w now busy idle total pending cd cr =
      { effects := [Effect.recordReconcile busy idle total pending cd cr,
          Effect.recordResult true], ok := true, state := st } := by
  have h1 : ¬(computeDesired pending busy cfg.minAgents cfg.maxAgents = cd) := by omega
  simp [reconcileCore, h1, h2, h3, h4]

theorem reconcileCore_apply_down (cfg : ScalerConfig) (st : ScalerState) (w : World)
    (now busy idle total pending cd cr : Int)
    (h2 : computeDesired pending busy cfg.minAgents cfg.maxAgents < cd)
    (h3 : cooldownBlocking st now cfg.cooldown = false)
    (h4 : cd - min (cd - computeDesired pending busy cfg.minAgents cfg.maxAgents) idle ≠ cd) :
    reconcileCore cfg st w now busy idle total pending cd cr =
      applyScale w st now
        (cd - min (cd - computeDesired pending busy cfg.minAgents cfg.maxAgents) idle)
        (if cd - min (cd - computeDesired pending busy cfg.minAgents cfg.maxAgents) idle < cd
          then "down" else "up")
        ([Effect.recordReconcile busy idle total pending cd cr] ++ (protectBusyTasks w).1 ++
          (if (protectBusyTasks w).2 then [] else [Effect.recordTaskProtectionError])) := by
  have h1 : ¬(computeDesired pending busy cfg.minAgents cfg.maxAgents = cd) := by omega
  simp [reconcileCore, h1, h2, h3, h4]

theorem reconcileCore_apply_up (cfg : ScalerConfig) (st : ScalerState) (w : World)
    (now busy idle total pending cd cr : Int)
    (h2 : cd < computeDesired pending busy cfg.minAgents cfg.maxAgents) :
    reconcileCore cfg st w now busy idle total pending cd cr =
      applyScale w st now (computeDesired pending busy cfg.minAgents cfg.maxAgents) "up"
        [Effect.recordReconcile busy idle total pending cd cr] := by
  have h1 : ¬(computeDesired pending busy cfg.minAgents cfg.maxAgents = cd) := by omega
  have h2' : ¬(computeDesired pending busy cfg.minAgents cfg.maxAgents < cd) := by omega
  simp [reconcileCore, h1, h2']

theorem applyScale_mem_other (w : World) (st : ScalerState) (now count : Int)
    (dir : String) (pre : List Effect) (e : Effect)
    (h1 : ∀ c, e ≠ Effect.setDesiredCall c)
    (h2 : ∀ d, e ≠ Effect.recordScaleEvent d)
    (h3 : ∀ b, e ≠ Effect.recordResult b) :
    (e ∈ (applyScale w st now count dir pre).effects ↔ e ∈ pre) := by
  by_cases h5 : w.setDesiredOk <;> simp [applyScale, h5, h1, h2, h3]

theorem setDesired_mem_applyScale (w : World) (st : ScalerState) (now count : Int)
    (dir : String) (pre : List Effect) (c : Int)
    (hpre : ∀ c', Effect.setDesiredCall c' ∉ pre) :
    (Effect.setDesiredCall c ∈ (applyScale w st now count dir pre).effects ↔ c = count) := by
  by_cases h5 : w.setDesiredOk <;> simp [applyScale, h5, hpre]

theorem pre_down_no_setDesired (w : World) (busy idle total pending cd cr : Int) (c : Int) :
    Effect.setDesiredCall c ∉
      ([Effect.recordReconcile busy idle total pending cd cr] ++ (protectBusyTasks w).1 ++
        (if (protectBusyTasks w).2 then [] else [Effect.recordTaskProtectionError])) := by
  by_cases h6 : (protectBusyTasks w).2 <;> simp [h6, protect_no_setDesired w c]

theorem cooldownBlocking_iff (st : ScalerState) (now cooldown : Int) :
    cooldownBlocking st now cooldown = true ↔
      ∃ t, st.lastScaleTime = some t ∧ now - t < cooldown := by
  rcases h : st.lastScaleTime with _ | t <;> simp [cooldownBlocking, h]

theorem pre_down_no_skip (w : World) (busy idle total pending cd cr : Int) :
    Effect.recordCooldownSkip ∉
      ([Effect.recordReconcile busy idle total pending cd cr] ++ (protectBusyTasks w).1 ++
        (if (protectBusyTasks w).2 then [] else [Effect.recordTaskProtectionError])) := by
  by_cases h6 : (protectBusyTasks w).2 <;>
    simp [h6,
      protect_mem_other w Effect.recordCooldownSkip (fun a b t h => Effect.noConfusion h)]

theorem applyScale_ok (w : World) (st : ScalerState) (now count : Int)
    (dir : String) (effs : List Effect) (h5 : w.setDesiredOk = true) :
    applyScale w st now count dir effs =
      { effects := effs ++ [Effect.setDesiredCall count,
          Effect.recordScaleEvent dir, Effect.recordResult true],
        ok := true, state := { lastScaleTime := some now } } := by
  simp [applyScale, h5]

theorem applyScale_fail (w : World) (st : ScalerState) (now count : Int)
    (dir : String) (effs : List Effect) (h5 : w.setDesiredOk = false) :
    applyScale w st now count dir effs =
      { effects := effs ++ [Effect.setDesiredCall count, Effect.recordResult false],
        ok := false, state := st } := by
  simp [applyScale, h5]

theorem pre_down_no_scaleEvent (w : World) (busy idle total pending cd cr : Int)
    (d : String) :
    Effect.recordScaleEvent d ∉
      ([Effect.recordReconcile busy idle total pending cd cr] ++ (protectBusyTasks w).1 ++
        (if (protectBusyTasks w).2 then [] else [Effect.recordTaskProtectionError])) := by
  by_cases h6 : (protectBusyTasks w).2 <;>
    simp [h6,
      protect_mem_other w (Effect.recordScaleEvent d) (fun a b t h => Effect.noConfusion h)]

theorem protect_countP_setDesired (w : World) :
    ((protectBusyTasks w).1.countP isSetDesiredCall) = 0 := by
  rw [List.countP_eq_zero]
  intro e he
  cases e <;> simp [isSetDesiredCall]
  case setDesiredCall c =>
    exact protect_no_setDesired w c he

theorem reconcile_at_most_one_setDesired (cfg : ScalerConfig) (st : ScalerState)
    (w : World) (now : Int) :
    ((Reconcile cfg st w now).effects.countP isSetDesiredCall) ≤ 1 := by
  rcases hA : w.poolStatus with _ | ⟨busy, idle, total⟩
  · have hR : Reconcile cfg st w now = ⟨[Effect.recordResult false], false, st⟩ := by
      unfold Reconcile; rw [hA]
    simp [hR, List.countP_cons, isSetDesiredCall]
  rcases hB : w.pendingRuns with _ | pending
  · have hR : Reconcile cfg st w now = ⟨[Effect.recordResult false], false, st⟩ := by
      unfold Reconcile; rw [hA, hB]
    simp [hR, List.countP_cons, isSetDesiredCall]
  rcases hC : w.serviceStatus with _ | ⟨cd, cr⟩
  · have hR : Reconcile cfg st w now = ⟨[Effect.recordResult false], false, st⟩ := by
      unfold Reconcile; rw [hA, hB, hC]
    simp [hR, List.countP_cons, isSetDesiredCall]
  rw [Reconcile_reads cfg st w now busy idle total pending cd cr hA hB hC]
  by_cases h1 : computeDesired pending busy cfg.minAgents cfg.maxAgents = cd
  · rw [reconcileCore_noop cfg st w now busy idle total pending cd cr h1]
    simp [List.countP_cons, isSetDesiredCall]
  by_cases h2 : computeDesired pending busy cfg.minAgents cfg.maxAgents < cd
  · by_cases h3 : cooldownBlocking st now cfg.cooldown
    · rw [reconcileCore_cooldown cfg st w now busy idle total pending cd cr h2 h3]
      simp [List.countP_cons, isSetDesiredCall]
    · rw [Bool.not_eq_true] at h3
      by_cases h4 :
          cd - min (cd - computeDesired pending busy cfg.minAgents cfg.maxAgents) idle = cd
      · rw [reconcileCore_guard_noop cfg st w now busy idle total pending cd cr h2 h3 h4]
        simp [List.countP_cons, isSetDesiredCall]
      · rw [reconcileCore_apply_down cfg st w now busy idle total pending cd cr h2 h3 h4]
        by_cases h6 : (protectBusyTasks w).2 <;>
          by_cases h5 : w.setDesiredOk <;>
            first
              | (rw [applyScale_ok _ _ _ _ _ _ h5]
                 simp [h6, List.countP_append, List.countP_cons, isSetDesiredCall,
                   protect_countP_setDesired w])
              | (rw [applyScale_fail _ _ _ _ _ _ (Bool.not_eq_true _ |>.mp h5)]
                 simp [h6, List.countP_append, List.countP_cons, isSetDesiredCall,
                   protect_countP_setDesired w])
  · have h2' : cd < computeDesired pending busy cfg.minAgents cfg.maxAgents := by omega
    rw [reconcileCore_apply_up cfg st w now busy idle total pending cd cr h2']
    by_cases h5 : w.setDesiredOk
    · rw [applyScale_ok _ _ _ _ _ _ h5]
      simp [List.countP_append, List.countP_cons, isSetDesiredCall]
    · rw [Bool.not_eq_true] at h5
      rw [applyScale_fail _ _ _ _ _ _ h5]
      simp [List.countP_append, List.countP_cons, isSetDesiredCall]

theorem partition_go (tasks : List TaskInfo) :
    ∀ (agents : List AgentInfo) (acc : List String × List String),
      agents.foldl (partitionStep tasks) acc =
        (acc.1 ++ agents.filterMap
            (fun a => if a.status = "busy" then lookupIp tasks a.ip else none),
         acc.2 ++ agents.filterMap
            (fun a => if a.status = "busy" then none else lookupIp tasks a.ip)) := by
  intro agents
  induction agents with
  | nil => intro acc; simp
  | cons a rest ih =>
    intro acc
    rw [List.foldl_cons, ih]
    rcases hl : lookupIp tasks a.ip with _ | arn <;>
      by_cases hb : a.status = "busy" <;>
        simp [partitionStep, hl, hb, List.filterMap_cons]

theorem partitionAgents_spec (agents : List AgentInfo) (tasks : List TaskInfo) :
    partitionAgents agents tasks =
      (agents.filterMap (fun a => if a.status = "busy" then lookupIp tasks a.ip else none),
       agents.filterMap (fun a => if a.status = "busy" then none else lookupIp tasks a.ip)) := by
  unfold partitionAgents
  rw [partition_go]
  simp

theorem lookup_go (ip : String) :
    ∀ (tasks : List TaskInfo) (acc : Option String),
      tasks.foldl (lookupStep ip) acc =
        (tasks.filter fun t => t.privateIP ≠ "").foldl (lookupStep ip) acc := by
  intro tasks
  induction tasks with
  | nil => intro acc; simp
  | cons t rest ih =>
    intro acc
    by_cases he : t.privateIP = ""
    · have hstep : lookupStep ip acc t = acc := by simp [lookupStep, he]
      rw [List.foldl_cons, hstep, ih, List.filter_cons]
      simp [he]
    · rw [List.foldl_cons, ih, List.filter_cons]
      simp [he]

theorem lookupIp_nonempty (tasks : List TaskInfo) (ip : String) :
    lookupIp tasks ip = lookupIp (tasks.filter fun t => t.privateIP ≠ "") ip := by
  unfold lookupIp
  rw [lookup_go]

theorem protect_trace_ok (w : World) (agents : List AgentInfo) (tasks : List TaskInfo)
    (hA : w.agentDetails = some agents) (hT : w.taskIPs = some tasks)
    (hOk : w.protectBusyOk = true) :
    (protectBusyTasks w).1 =
      (if (partitionAgents agents tasks).1 = [] then []
        else [Effect.setProtection (partitionAgents agents tasks).1 true 120]) ++
      (if (partitionAgents agents tasks).2 = [] then []
        else [Effect.setProtection (partitionAgents agents tasks).2 false 0]) := by
  unfold protectBusyTasks
  rw [hA, hT]
  by_cases h1 : (partitionAgents agents tasks).1 = [] <;>
    by_cases h2 : (partitionAgents agents tasks).2 = [] <;>
      simp [protectCore, h1, h2, hOk]

theorem protect_busy_call_iff (w : World) (agents : List AgentInfo) (tasks : List TaskInfo)
    (hA : w.agentDetails = some agents) (hT : w.taskIPs = some tasks) :
    (Effect.setProtection (partitionAgents agents tasks).1 true 120 ∈ (protectBusyTasks w).1
      ↔ (partitionAgents agents tasks).1 ≠ []) := by
  unfold protectBusyTasks
  rw [hA, hT]
  by_cases h1 : (partitionAgents agents tasks).1 = [] <;>
    by_cases h2 : (partitionAgents agents tasks).2 = [] <;>
      by_cases h3 : w.protectBusyOk <;>
        simp [protectCore, h1, h2, h3]

theorem chunks_flatten : ∀ l : List String, (chunks l).flatten = l := by
  intro l
  induction l using chunks.induct with
  | case1 => simp [chunks]
  | case2 a rest ih =>
    rw [chunks]
    simp only [List.flatten_cons, ih]
    exact List.take_append_drop 10 (a :: rest)

theorem chunks_mem_size : ∀ l : List String, ∀ b ∈ chunks l, b.length ≤ 10 ∧ b ≠ [] := by
  intro l
  induction l using chunks.induct with
  | case1 => simp [chunks]
  | case2 a rest ih =>
    intro b hb
    rw [chunks] at hb
    rcases List.mem_cons.mp hb with h | h
    · subst h
      constructor
      · simp
      · simp
    · exact ih b h

theorem chunks_length : ∀ l : List String, (chunks l).length = (l.length + 9) / 10 := by
  intro l
  induction l using chunks.induct with
  | case1 => simp [chunks]
  | case2 a rest ih =>
    rw [chunks]
    simp only [List.length_cons, ih, List.length_drop]
    omega

theorem runBatches_no_fail (enabled : Bool) (ttl : Int) :
    ∀ (bs : List (List String)) (i : Nat),
      runProtectionBatches enabled ttl (fun _ => false) bs i =
        (bs.map (mkProtectionCall enabled ttl), true) := by
  intro bs
  induction bs with
  | nil => intro i; simp [runProtectionBatches]
  | cons b rest ih => intro i; simp [runProtectionBatches, ih]

theorem runBatches_abort (enabled : Bool) (ttl : Int) (failAt : Nat → Bool) :
    ∀ (k : Nat) (bs : List (List String)) (i : Nat),
      (∀ j, j < k → failAt (i + j) = false) → failAt (i + k) = true → k < bs.length →
      runProtectionBatches enabled ttl failAt bs i =
        ((bs.take (k + 1)).map (mkProtectionCall enabled ttl), false) := by
  intro k
  induction k with
  | zero =>
    intro bs i h0 hk hlen
    cases bs with
    | nil => simp at hlen
    | cons b rest =>
      have hk' : failAt i = true := by simpa using hk
      simp [runProtectionBatches, hk']
  | succ k ih =>
    intro bs i h0 hk hlen
    cases bs with
    | nil => simp at hlen
    | cons b rest =>
      have hi : failAt i = false := by simpa using h0 0 (Nat.succ_pos k)
      have h0' : ∀ j, j < k → failAt (i + 1 + j) = false := by
        intro j hj
        have hf := h0 (j + 1) (by omega)
        have he : i + (j + 1) = i + 1 + j := by omega
        rwa [he] at hf
      have hk' : failAt (i + 1 + k) = true := by
        have he : i + (k + 1) = i + 1 + k := by omega
        rwa [he] at hk
      have hlen' : k < rest.length := by
        simpa using Nat.lt_of_succ_lt_succ (by simpa using hlen)
      simp [runProtectionBatches, hi, ih rest (i + 1) h0' hk' hlen']

theorem runBatches_call_shape (enabled : Bool) (ttl : Int) (failAt : Nat → Bool) :
    ∀ (bs : List (List String)) (i : Nat),
      ∀ c ∈ (runProtectionBatches enabled ttl failAt bs i).1,
        ∃ b, c = mkProtectionCall enabled ttl b := by
  intro bs
  induction bs with
  | nil => intro i c hc; simp [runProtectionBatches] at hc
  | cons b rest ih =>
    intro i c hc
    by_cases hf : failAt i
    · simp [runProtectionBatches, hf] at hc
      exact ⟨b, hc⟩
    · simp only [runProtectionBatches, hf, Bool.false_eq_true, if_false,
        List.mem_cons] at hc
      rcases hc with hc | hc
      · exact ⟨b, hc⟩
      · exact ih (i + 1) c hc

theorem poolCount_go :
    ∀ (l : List AgentInfo) (b i t : Int),
      l.foldl poolCountStep (b, i, t) =
        (b + (l.countP (fun a => a.status == "busy") : Int),
         i + (l.countP (fun a => a.status == "idle") : Int),
         t + (l.countP (fun a => a.status == "busy") : Int) +
           (l.countP (fun a => a.status == "idle") : Int)) := by
  intro l
  induction l with
  | nil => intro b i t; simp
  | cons a rest ih =>
    intro b i t
    rw [List.foldl_cons]
    by_cases hb : a.status = "busy"
    · simp [poolCountStep, hb, ih, List.countP_cons]
      omega
    · by_cases hi : a.status = "idle"
      · simp [poolCountStep, hb, hi, ih, List.countP_cons]
        omega
      · simp [poolCountStep, hb, hi, ih, List.countP_cons]

/-! ## Claim theorems -/

/-- C1: for non-negative `pending` and `busy` and any configuration with
`0 ≤ minAgents ≤ maxAgents`, the computed target equals
`max(minAgents, min(pending + busy, maxAgents))`; consequently
`minAgents ≤ target ≤ maxAgents` and `target ≤ pending + busy + minAgents`. -/
theorem computeDesired_is_clamp (pending busy minA maxA : Int)
    (hp : 0 ≤ pending) (hb : 0 ≤ busy) (hm : 0 ≤ minA) (hmm : minA ≤ maxA) :
    computeDesired pending busy minA maxA = max minA (min (pending + busy) maxA) ∧
    minA ≤ computeDesired pending busy minA maxA ∧
    computeDesired pending busy minA maxA ≤ maxA ∧
    computeDesired pending busy minA maxA ≤ pending + busy + minA := by
  simp only [computeDesired]
  refine ⟨trivial, ?_, ?_, ?_⟩ <;> omega

/-- Witness for C1 at `pending = 3, busy = 2, minA = 1, maxA = 10`. -/
theorem computeDesired_is_clamp_witness :
    computeDesired 3 2 1 10 = max 1 (min (3 + 2) 10) ∧
    1 ≤ computeDesired 3 2 1 10 ∧
    computeDesired 3 2 1 10 ≤ 10 ∧
    computeDesired 3 2 1 10 ≤ 3 + 2 + 1 :=
  computeDesired_is_clamp 3 2 1 10 (by decide) (by decide) (by decide) (by decide)

/-- C2: at the scale-down apply step the count passed to `setDesired` is
`currentDesired − min(currentDesired − target, idle)`, and in every cycle
every `setDesired` call satisfies `newDesired ≥ currentDesired − idle`. -/
theorem reconcile_idle_guard (cfg : ScalerConfig) (st : ScalerState) (w : World)
    (now busy idle total pending cd cr : Int)
    (hp : w.poolStatus = some (busy, idle, total))
    (hpr : w.pendingRuns = some pending)
    (hs : w.serviceStatus = some (cd, cr))
    (hidle : 0 ≤ idle) :
    (computeDesired pending busy cfg.minAgents cfg.maxAgents < cd →
      cooldownBlocking st now cfg.cooldown = false →
      cd - min (cd - computeDesired pending busy cfg.minAgents cfg.maxAgents) idle ≠ cd →
      Effect.setDesiredCall
          (cd - min (cd - computeDesired pending busy cfg.minAgents cfg.maxAgents) idle)
        ∈ (Reconcile cfg st w now).effects) ∧
    (∀ c, Effect.setDesiredCall c ∈ (Reconcile cfg st w now).effects → cd - idle ≤ c) := by
  rw [Reconcile_reads cfg st w now busy idle total pending cd cr hp hpr hs]
  constructor
  · intro h2 h3 h4
    rw [reconcileCore_apply_down cfg st w now busy idle total pending cd cr h2 h3 h4]
    rw [setDesired_mem_applyScale _ _ _ _ _ _ _
      (pre_down_no_setDesired w busy idle total pending cd cr)]
  · intro c hc
    by_cases h1 : computeDesired pending busy cfg.minAgents cfg.maxAgents = cd
    · rw [reconcileCore_noop cfg st w now busy idle total pending cd cr h1] at hc
      simp at hc
    by_cases h2 : computeDesired pending busy cfg.minAgents cfg.maxAgents < cd
    · by_cases h3 : cooldownBlocking st now cfg.cooldown
      · rw [reconcileCore_cooldown cfg st w now busy idle total pending cd cr h2 h3] at hc
        simp at hc
      · rw [Bool.not_eq_true] at h3
        by_cases h4 :
            cd - min (cd - computeDesired pending busy cfg.minAgents cfg.maxAgents) idle = cd
        · rw [reconcileCore_guard_noop cfg st w now busy idle total pending cd cr
            h2 h3 h4] at hc
          simp at hc
        · rw [reconcileCore_apply_down cfg st w now busy idle total pending cd cr
            h2 h3 h4] at hc
          rw [setDesired_mem_applyScale _ _ _ _ _ _ _
            (pre_down_no_setDesired w busy idle total pending cd cr)] at hc
          omega
    · have h2' : cd < computeDesired pending busy cfg.minAgents cfg.maxAgents := by omega
      rw [reconcileCore_apply_up cfg st w now busy idle total pending cd cr h2'] at hc
      rw [setDesired_mem_applyScale _ _ _ _ _ _ _ (by simp)] at hc
      omega

/-- Witness for C2: with target 0, desired 10 and 3 idle agents the cycle
issues `setDesired(10 − min(10, 3)) = setDesired(7)`. -/
theorem reconcile_idle_guard_witness :
    Effect.setDesiredCall (10 - min (10 - computeDesired 0 0 0 10) 3)
        ∈ (Reconcile ⟨0, 10, 60⟩ ⟨none⟩ witnessWorldDown 100).effects :=
  (reconcile_idle_guard ⟨0, 10, 60⟩ ⟨none⟩ witnessWorldDown 100 0 3 3 0 10 10
      rfl rfl rfl (by decide)).1 (by decide) (by decide) (by decide)

/-- C3: a scale-up cycle applies `setDesired(target)` immediately: the
effects do not depend on `lastScaleTime`, no cooldown skip is recorded, no
`setProtection` call is made, and on a successful apply an `"up"` scale
event is emitted and `lastScaleTime` is set to now. -/
theorem reconcile_scale_up (cfg : ScalerConfig) (st : ScalerState) (w : World)
    (now busy idle total pending cd cr : Int)
    (hp : w.poolStatus = some (busy, idle, total))
    (hpr : w.pendingRuns = some pending)
    (hs : w.serviceStatus = some (cd, cr))
    (hup : cd < computeDesired pending busy cfg.minAgents cfg.maxAgents) :
    Effect.setDesiredCall (computeDesired pending busy cfg.minAgents cfg.maxAgents)
        ∈ (Reconcile cfg st w now).effects ∧
    (∀ st' : ScalerState,
      (Reconcile cfg st' w now).effects = (Reconcile cfg st w now).effects) ∧
    Effect.recordCooldownSkip ∉ (Reconcile cfg st w now).effects ∧
    (∀ a b t, Effect.setProtection a b t ∉ (Reconcile cfg st w now).effects) ∧
    (w.setDesiredOk = true →
      Effect.recordScaleEvent "up" ∈ (Reconcile cfg st w now).effects ∧
      (Reconcile cfg st w now).state.lastScaleTime = some now) := by
  have hcore : ∀ st' : ScalerState, Reconcile cfg st' w now =
      applyScale w st' now (computeDesired pending busy cfg.minAgents cfg.maxAgents) "up"
        [Effect.recordReconcile busy idle total pending cd cr] := by
    intro st'
    rw [Reconcile_reads cfg st' w now busy idle total pending cd cr hp hpr hs]
    exact reconcileCore_apply_up cfg st' w now busy idle total pending cd cr hup
  by_cases hOk : w.setDesiredOk <;>
    simp [hcore, applyScale, hOk]

/-- Witness for C3: scale-up from 0 to 5 issues the call even with a fresh
`lastScaleTime` (the cooldown would be blocking, but it is ignored). -/
theorem reconcile_scale_up_witness :
    Effect.setDesiredCall (computeDesired 3 2 0 10)
        ∈ (Reconcile ⟨0, 10, 60⟩ ⟨some 50⟩ witnessWorldUp 100).effects :=
  (reconcile_scale_up ⟨0, 10, 60⟩ ⟨some 50⟩ witnessWorldUp 100 2 0 2 3 0 0
      rfl rfl rfl (by decide)).1

/-- C4: on a cycle whose target is below `currentDesired`, a cooldown skip is
recorded iff `lastScaleTime` is set and `now − lastScaleTime < cooldown`, and
then the cycle returns ok with no mutation; when cooldown does not block but
the idle guard reduces the decrement to zero, the cycle also returns ok with
no mutation, no `lastScaleTime` update, and no cooldown skip. -/
theorem reconcile_cooldown_semantics (cfg : ScalerConfig) (st : ScalerState) (w : World)
    (now busy idle total pending cd cr : Int)
    (hp : w.poolStatus = some (busy, idle, total))
    (hpr : w.pendingRuns = some pending)
    (hs : w.serviceStatus = some (cd, cr))
    (hdown : computeDesired pending busy cfg.minAgents cfg.maxAgents < cd) :
    (Effect.recordCooldownSkip ∈ (Reconcile cfg st w now).effects ↔
      ∃ t, st.lastScaleTime = some t ∧ now - t < cfg.cooldown) ∧
    ((∃ t, st.lastScaleTime = some t ∧ now - t < cfg.cooldown) →
      Reconcile cfg st w now =
        { effects := [Effect.recordReconcile busy idle total pending cd cr,
            Effect.recordCooldownSkip, Effect.recordResult true],
          ok := true, state := st }) ∧
    (¬(∃ t, st.lastScaleTime = some t ∧ now - t < cfg.cooldown) →
      cd - min (cd - computeDesired pending busy cfg.minAgents cfg.maxAgents) idle = cd →
      Reconcile cfg st w now =
        { effects := [Effect.recordReconcile busy idle total pending cd cr,
            Effect.recordResult true], ok := true, state := st }) := by
  rw [Reconcile_reads cfg st w now busy idle total pending cd cr hp hpr hs]
  by_cases h3 : cooldownBlocking st now cfg.cooldown
  · rw [reconcileCore_cooldown cfg st w now busy idle total pending cd cr hdown h3]
    refine ⟨?_, fun _ => rfl, ?_⟩
    · simp only [List.mem_cons, List.not_mem_nil, or_false]
      simp [(cooldownBlocking_iff st now cfg.cooldown).mp h3]
    · intro hn _
      exact absurd ((cooldownBlocking_iff st now cfg.cooldown).mp h3) hn
  · rw [Bool.not_eq_true] at h3
    have hne : ¬∃ t, st.lastScaleTime = some t ∧ now - t < cfg.cooldown := fun hx =>
      by rw [(cooldownBlocking_iff st now cfg.cooldown).mpr hx] at h3; exact Bool.noConfusion h3
    by_cases h4 :
        cd - min (cd - computeDesired pending busy cfg.minAgents cfg.maxAgents) idle = cd
    · rw [reconcileCore_guard_noop cfg st w now busy idle total pending cd cr hdown h3 h4]
      exact ⟨iff_of_false (by simp) hne, fun hx => absurd hx hne, fun _ _ => rfl⟩
    · rw [reconcileCore_apply_down cfg st w now busy idle total pending cd cr hdown h3 h4]
      refine ⟨iff_of_false ?_ hne, fun hx => absurd hx hne, fun _ h4' => absurd h4' h4⟩
      intro hmem
      rw [applyScale_mem_other _ _ _ _ _ _ _ (fun c h => Effect.noConfusion h)
        (fun d h => Effect.noConfusion h) (fun b h => Effect.noConfusion h)] at hmem
      exact pre_down_no_skip w busy idle total pending cd cr hmem

/-- Witness for C4: a scale-down 50 time units after the last scale with a
60-unit cooldown records a skip and mutates nothing. -/
theorem reconcile_cooldown_semantics_witness :
    Reconcile ⟨0, 10, 60⟩ ⟨some 50⟩ witnessWorldCooldown 100 =
      { effects := [Effect.recordReconcile 0 3 3 0 10 10,
          Effect.recordCooldownSkip, Effect.recordResult true],
        ok := true, state := ⟨some 50⟩ } :=
  (reconcile_cooldown_semantics ⟨0, 10, 60⟩ ⟨some 50⟩ witnessWorldCooldown 100 0 3 3 0 10 10
      rfl rfl rfl (by decide)).2.1 ⟨50, rfl, by decide⟩

/-- C6: an erroring cycle leaves the state unchanged: a failed read aborts
with only a failure result recorded and no write; a failed `setDesired`
returns an error with `lastScaleTime` not updated, no scale event, and a
failure result recorded. -/
theorem reconcile_error_no_mutation (cfg : ScalerConfig) (st : ScalerState) (w : World)
    (now : Int) :
    ((w.poolStatus = none ∨ w.pendingRuns = none ∨ w.serviceStatus = none) →
      Reconcile cfg st w now =
        { effects := [Effect.recordResult false], ok := false, state := st }) ∧
    ((Reconcile cfg st w now).ok = false →
      (Reconcile cfg st w now).state = st ∧
      (∀ d, Effect.recordScaleEvent d ∉ (Reconcile cfg st w now).effects) ∧
      Effect.recordResult false ∈ (Reconcile cfg st w now).effects) := by
  rcases hA : w.poolStatus with _ | ⟨busy, idle, total⟩
  · have hR : Reconcile cfg st w now = ⟨[Effect.recordResult false], false, st⟩ := by
      unfold Reconcile; rw [hA]
    rw [hR]
    exact ⟨fun _ => rfl, fun _ => ⟨rfl, by simp, by simp⟩⟩
  rcases hB : w.pendingRuns with _ | pending
  · have hR : Reconcile cfg st w now = ⟨[Effect.recordResult false], false, st⟩ := by
      unfold Reconcile; rw [hA, hB]
    rw [hR]
    exact ⟨fun _ => rfl, fun _ => ⟨rfl, by simp, by simp⟩⟩
  rcases hC : w.serviceStatus with _ | ⟨cd, cr⟩
  · have hR : Reconcile cfg st w now = ⟨[Effect.recordResult false], false, st⟩ := by
      unfold Reconcile; rw [hA, hB, hC]
    rw [hR]
    exact ⟨fun _ => rfl, fun _ => ⟨rfl, by simp, by simp⟩⟩
  rw [Reconcile_reads cfg st w now busy idle total pending cd cr hA hB hC]
  refine ⟨fun h => by rcases h with h | h | h <;> simp_all, ?_⟩
  by_cases h1 : computeDesired pending busy cfg.minAgents cfg.maxAgents = cd
  · rw [reconcileCore_noop cfg st w now busy idle total pending cd cr h1]
    intro hok
    exact absurd hok (by simp)
  by_cases h2 : computeDesired pending busy cfg.minAgents cfg.maxAgents < cd
  · by_cases h3 : cooldownBlocking st now cfg.cooldown
    · rw [reconcileCore_cooldown cfg st w now busy idle total pending cd cr h2 h3]
      intro hok
      exact absurd hok (by simp)
    · rw [Bool.not_eq_true] at h3
      by_cases h4 :
          cd - min (cd - computeDesired pending busy cfg.minAgents cfg.maxAgents) idle = cd
      · rw [reconcileCore_guard_noop cfg st w now busy idle total pending cd cr h2 h3 h4]
        intro hok
        exact absurd hok (by simp)
      · rw [reconcileCore_apply_down cfg st w now busy idle total pending cd cr h2 h3 h4]
        by_cases h5 : w.setDesiredOk
        · rw [applyScale_ok _ _ _ _ _ _ h5]
          intro hok
          exact absurd hok (by simp)
        · rw [Bool.not_eq_true] at h5
          rw [applyScale_fail _ _ _ _ _ _ h5]
          intro _
          refine ⟨rfl, ?_, by simp⟩
          intro d hmem
          simp only [List.mem_append, List.mem_singleton, List.mem_cons] at hmem
          rcases hmem with hmem | hmem
          · exact pre_down_no_scaleEvent w busy idle total pending cd cr d
              (by simpa using hmem)
          · simp at hmem
  · have h2' : cd < computeDesired pending busy cfg.minAgents cfg.maxAgents := by omega
    rw [reconcileCore_apply_up cfg st w now busy idle total pending cd cr h2']
    by_cases h5 : w.setDesiredOk
    · rw [applyScale_ok _ _ _ _ _ _ h5]
      intro hok
      exact absurd hok (by simp)
    · rw [Bool.not_eq_true] at h5
      rw [applyScale_fail _ _ _ _ _ _ h5]
      intro _
      exact ⟨rfl, by simp, by simp⟩

/-- Witness for C6: a failed pool-status read aborts with only a failure
result and the state kept. -/
theorem reconcile_error_no_mutation_witness :
    Reconcile ⟨0, 10, 60⟩ ⟨some 5⟩ witnessWorldReadFail 100 =
      { effects := [Effect.recordResult false], ok := false, state := ⟨some 5⟩ } :=
  (reconcile_error_no_mutation ⟨0, 10, 60⟩ ⟨some 5⟩ witnessWorldReadFail 100).1 (Or.inl rfl)

/-- C7: if a cycle succeeds and converges (its resulting desired count equals
the target), a second cycle against the otherwise-unchanged world performs no
mutation — its trace is just the gauge snapshot and a success result, with
the state kept — and at most one `setDesired` call is made across the two
cycles. -/
theorem reconcile_idempotent (cfg : ScalerConfig) (st : ScalerState) (w : World)
    (now now' busy idle total pending cd cr r2 : Int)
    (hp : w.poolStatus = some (busy, idle, total))
    (hpr : w.pendingRuns = some pending)
    (hs : w.serviceStatus = some (cd, cr))
    (hok : (Reconcile cfg st w now).ok = true)
    (hconv : newDesired (Reconcile cfg st w now) cd =
      computeDesired pending busy cfg.minAgents cfg.maxAgents) :
    Reconcile cfg (Reconcile cfg st w now).state
        { w with serviceStatus := some (newDesired (Reconcile cfg st w now) cd, r2) } now' =
      { effects := [Effect.recordReconcile busy idle total pending
            (newDesired (Reconcile cfg st w now) cd) r2,
          Effect.recordResult true],
        ok := true, state := (Reconcile cfg st w now).state } ∧
    (Reconcile cfg st w now).effects.countP isSetDesiredCall +
      (Reconcile cfg (Reconcile cfg st w now).state
          { w with serviceStatus := some (newDesired (Reconcile cfg st w now) cd, r2) }
          now').effects.countP isSetDesiredCall ≤ 1 := by
  have h2 : Reconcile cfg (Reconcile cfg st w now).state
      { w with serviceStatus := some (newDesired (Reconcile cfg st w now) cd, r2) } now' =
      { effects := [Effect.recordReconcile busy idle total pending
            (newDesired (Reconcile cfg st w now) cd) r2,
          Effect.recordResult true],
        ok := true, state := (Reconcile cfg st w now).state } := by
    rw [Reconcile_reads cfg (Reconcile cfg st w now).state
      { w with serviceStatus := some (newDesired (Reconcile cfg st w now) cd, r2) } now'
      busy idle total pending (newDesired (Reconcile cfg st w now) cd) r2 hp hpr rfl]
    exact reconcileCore_noop cfg (Reconcile cfg st w now).state _ now' busy idle total
      pending (newDesired (Reconcile cfg st w now) cd) r2 hconv.symm
  refine ⟨h2, ?_⟩
  rw [h2]
  have h1 := reconcile_at_most_one_setDesired cfg st w now
  simp [List.countP_cons, isSetDesiredCall]
  omega

/-- Witness for C7: after the converging scale-up from 0 to 5, a second
cycle at desired 5 performs no mutation. -/
theorem reconcile_idempotent_witness :
    Reconcile ⟨0, 10, 60⟩ (Reconcile ⟨0, 10, 60⟩ ⟨none⟩ witnessWorldConv 100).state
        { witnessWorldConv with
          serviceStatus := some (newDesired (Reconcile ⟨0, 10, 60⟩ ⟨none⟩ witnessWorldConv 100) 0, 5) }
        200 =
      { effects := [Effect.recordReconcile 2 0 2 3
            (newDesired (Reconcile ⟨0, 10, 60⟩ ⟨none⟩ witnessWorldConv 100) 0) 5,
          Effect.recordResult true],
        ok := true, state := (Reconcile ⟨0, 10, 60⟩ ⟨none⟩ witnessWorldConv 100).state } :=
  (reconcile_idempotent ⟨0, 10, 60⟩ ⟨none⟩ witnessWorldConv 100 200 2 0 2 3 0 0 5
      rfl rfl rfl (by decide) (by decide)).1

/-- C5: the protection update builds the ip → handle map from tasks with a
non-empty ip, partitions the agents into `busyArns` (busy, ip resolves) and
`idleArns` (all other agents whose ip resolves), skipping unresolved ips;
the busy-enable call (ttl 120) is issued iff `busyArns` is non-empty, and —
when the busy step succeeds — it is followed by the idle-disable call
(ttl 0) iff `idleArns` is non-empty; a protection failure is absorbed by the
reconciler: the error metric is recorded, `setDesired(guardedTarget)` is
still issued, and the cycle returns ok when the apply succeeds. -/
theorem protect_correlation (w : World) (agents : List AgentInfo) (tasks : List TaskInfo)
    (hA : w.agentDetails = some agents) (hT : w.taskIPs = some tasks) :
    (partitionAgents agents tasks =
      (agents.filterMap (fun a => if a.status = "busy" then lookupIp tasks a.ip else none),
       agents.filterMap (fun a => if a.status = "busy" then none else lookupIp tasks a.ip))) ∧
    (∀ ip, lookupIp tasks ip = lookupIp (tasks.filter fun t => t.privateIP ≠ "") ip) ∧
    (Effect.setProtection (partitionAgents agents tasks).1 true 120 ∈ (protectBusyTasks w).1
      ↔ (partitionAgents agents tasks).1 ≠ []) ∧
    (w.protectBusyOk = true →
      ((protectBusyTasks w).1 =
        (if (partitionAgents agents tasks).1 = [] then []
          else [Effect.setProtection (partitionAgents agents tasks).1 true 120]) ++
        (if (partitionAgents agents tasks).2 = [] then []
          else [Effect.setProtection (partitionAgents agents tasks).2 false 0])) ∧
      (Effect.setProtection (partitionAgents agents tasks).2 false 0 ∈ (protectBusyTasks w).1
        ↔ (partitionAgents agents tasks).2 ≠ [])) ∧
    (∀ (cfg : ScalerConfig) (st : ScalerState) (now busy idle total pending cd cr : Int),
      w.poolStatus = some (busy, idle, total) →
      w.pendingRuns = some pending →
      w.serviceStatus = some (cd, cr) →
      computeDesired pending busy cfg.minAgents cfg.maxAgents < cd →
      cooldownBlocking st now cfg.cooldown = false →
      cd - min (cd - computeDesired pending busy cfg.minAgents cfg.maxAgents) idle ≠ cd →
      (protectBusyTasks w).2 = false →
      Effect.recordTaskProtectionError ∈ (Reconcile cfg st w now).effects ∧
      Effect.setDesiredCall
          (cd - min (cd - computeDesired pending busy cfg.minAgents cfg.maxAgents) idle)
        ∈ (Reconcile cfg st w now).effects ∧
      (w.setDesiredOk = true → (Reconcile cfg st w now).ok = true)) := by
  refine ⟨partitionAgents_spec agents tasks, fun ip => lookupIp_nonempty tasks ip,
    protect_busy_call_iff w agents tasks hA hT, ?_, ?_⟩
  · intro hOk
    refine ⟨protect_trace_ok w agents tasks hA hT hOk, ?_⟩
    rw [protect_trace_ok w agents tasks hA hT hOk]
    by_cases h1 : (partitionAgents agents tasks).1 = [] <;>
      by_cases h2 : (partitionAgents agents tasks).2 = [] <;>
        simp [h1, h2]
  · intro cfg st now busy idle total pending cd cr hp hpr hs hdown hcb hg hpf
    rw [Reconcile_reads cfg st w now busy idle total pending cd cr hp hpr hs]
    rw [reconcileCore_apply_down cfg st w now busy idle total pending cd cr hdown hcb hg]
    by_cases h5 : w.setDesiredOk
    · rw [applyScale_ok _ _ _ _ _ _ h5]
      simp [hpf]
    · rw [Bool.not_eq_true] at h5
      rw [applyScale_fail _ _ _ _ _ _ h5]
      simp [hpf, h5]

/-- Witness for C5: with a busy agent resolving to `arn1` the busy-enable
protection call is issued. -/
theorem protect_correlation_witness :
    Effect.setProtection
        (partitionAgents
          [⟨"a1", "agent1", "10.0.0.1", "busy"⟩, ⟨"a2", "agent2", "10.0.0.2", "idle"⟩]
          [⟨"arn1", "10.0.0.1"⟩, ⟨"arn2", "10.0.0.2"⟩]).1 true 120
      ∈ (protectBusyTasks witnessWorldProtect).1 :=
  ((protect_correlation witnessWorldProtect
      [⟨"a1", "agent1", "10.0.0.1", "busy"⟩, ⟨"a2", "agent2", "10.0.0.2", "idle"⟩]
      [⟨"arn1", "10.0.0.1"⟩, ⟨"arn2", "10.0.0.2"⟩] rfl rfl).2.2.1).mpr (by decide)

/-- C8: `SetTaskProtection` splits the handle list into consecutive batches
of at most 10, issuing one call per batch in order (`⌈n/10⌉` calls, none for
an empty list); a failing batch is issued, returns the error, and aborts all
later batches; with `enabled = false` the TTL is never sent. -/
theorem setTaskProtection_batches (taskArns : List String) (enabled : Bool)
    (ttl : Int) (failAt : Nat → Bool) :
    ((chunks taskArns).flatten = taskArns) ∧
    (∀ b ∈ chunks taskArns, b.length ≤ 10 ∧ b ≠ []) ∧
    ((chunks taskArns).length = (taskArns.length + 9) / 10) ∧
    (SetTaskProtection taskArns enabled ttl (fun _ => false) =
      ((chunks taskArns).map (mkProtectionCall enabled ttl), true)) ∧
    (taskArns = [] → SetTaskProtection taskArns enabled ttl failAt = ([], true)) ∧
    (∀ k, (∀ j, j < k → failAt j = false) → failAt k = true →
      k < (chunks taskArns).length →
      SetTaskProtection taskArns enabled ttl failAt =
        (((chunks taskArns).take (k + 1)).map (mkProtectionCall enabled ttl), false)) ∧
    (enabled = false →
      ∀ c ∈ (SetTaskProtection taskArns enabled ttl failAt).1,
        c.expiresInMinutes = none) := by
  refine ⟨chunks_flatten taskArns, chunks_mem_size taskArns, chunks_length taskArns,
    runBatches_no_fail enabled ttl (chunks taskArns) 0, ?_, ?_, ?_⟩
  · intro h
    subst h
    simp [SetTaskProtection, chunks, runProtectionBatches]
  · intro k h0 hk hlen
    have h0' : ∀ j, j < k → failAt (0 + j) = false := by simpa using h0
    have hk' : failAt (0 + k) = true := by simpa using hk
    exact runBatches_abort enabled ttl failAt k (chunks taskArns) 0 h0' hk' hlen
  · intro he c hc
    obtain ⟨b, rfl⟩ := runBatches_call_shape enabled ttl failAt (chunks taskArns) 0 c hc
    simp [mkProtectionCall, he]

/-- Witness for C8: on 12 handles with the first remote call failing, only
that first (10-element) batch is issued and the error is returned. -/
theorem setTaskProtection_batches_witness :
    SetTaskProtection (List.replicate 12 "a") true 60 (fun j => j == 0) =
      (((chunks (List.replicate 12 "a")).take 1).map (mkProtectionCall true 60), false) :=
  (setTaskProtection_batches (List.replicate 12 "a") true 60
      (fun j => j == 0)).2.2.2.2.2.1 0
    (fun j hj => absurd hj (Nat.not_lt_zero j)) (by decide)
    (by rw [chunks_length (List.replicate 12 "a")]; decide)

/-- C9: `ServiceView`'s pool status keeps only agents whose ip is in the
task-IP set and returns busy and idle as the counts of kept agents with that
status, with `total = busy + idle`; unrecognised statuses and non-matching
ips contribute to none of the three counts. -/
theorem serviceView_pool_counts (allAgents : List AgentInfo) (ips : List String) :
    getAgentPoolStatus allAgents ips =
      (((filteredAgents allAgents ips).countP (fun a => a.status == "busy") : Int),
       ((filteredAgents allAgents ips).countP (fun a => a.status == "idle") : Int),
       ((filteredAgents allAgents ips).countP (fun a => a.status == "busy") : Int) +
         ((filteredAgents allAgents ips).countP (fun a => a.status == "idle") : Int)) := by
  unfold getAgentPoolStatus
  rw [poolCount_go]
  simp

/-- C10: `ServiceView.GetPendingRuns` errors (with a zero count) for any
run-type selector other than plan (0) and apply (1) even when the underlying
read succeeds, and returns exactly `PlanPending` for the plan selector and
exactly `ApplyPending` for the apply selector. -/
theorem serviceView_pending_runs (runType : Int) (c : PendingRunCounts)
    (h1 : runType ≠ RunTypePlan) (h2 : runType ≠ RunTypeApply) :
    getPendingRuns runType (some c) = (0, false) ∧
    getPendingRuns RunTypePlan (some c) = (c.planPending, true) ∧
    getPendingRuns RunTypeApply (some c) = (c.applyPending, true) := by
  refine ⟨by simp [getPendingRuns, h1, h2], ?_, ?_⟩ <;>
    simp [getPendingRuns, RunTypePlan, RunTypeApply]

/-- Witness for C10 at selector 7 and counts (2, 3). -/
theorem serviceView_pending_runs_witness :
    getPendingRuns 7 (some ⟨2, 3⟩) = (0, false) :=
  (serviceView_pending_runs 7 ⟨2, 3⟩ (by decide) (by decide)).1

end Autoscaler
